import Mathlib

/-!
Verification development for the NEXi backend core.

This file shallowly embeds the two subsystems the specification covers:

* the JSON flattening / record-indexer logic of `BACKEND/rag/json_engine.py`
  (`flatten_json`, `load_json_documents`, `initialize_json_rag`);
* the PDF retrieve-then-rerank logic of `BACKEND/rag/pdf_engine.py`
  (`initialize_pdf_rag_blocking`, `get_pdf_rag_answer_async`);
* the session lifecycle logic of `BACKEND/core/session_manager.py`
  (`UserSession.add_interaction`, `UserSession.start_new_session`,
  `NexiSessionManager.end_session`, `check_inactive_sessions`,
  `is_goodbye_message`, `handle_message`).

Modelling conventions:
* Python JSON values become the inductive type `Json`; numbers are modelled
  as `Int` (no claim depends on float formatting).
* Wall-clock time (`time.time()`, `datetime.now()`) is modelled as a `Nat`
  number of seconds, passed explicitly as a `now` argument.
* `str.lower()` is modelled for ASCII text (`Char.toLower`).
* Disk persistence (`save`/`load`) performs I/O only and never alters the
  in-memory state, so it is a no-op in the model; fresh sessions are created
  with no on-disk history.
* External library calls (Chroma index construction, the embedding model,
  the cross-encoder) are opaque to this repository; they are modelled as
  total constructors / an abstract scoring function.
-/

/-- Generic JSON tree, as produced by Python's `json.load`.
Object fields keep insertion order, mirroring Python dicts. -/
inductive Json : Type where
  | str (s : String)
  | num (n : Int)
  | bool (b : Bool)
  | null
  | arr (items : List Json)
  | obj (fields : List (String × Json))
deriving Repr

namespace Json

/-- Python truthiness (`bool(x)`) on JSON values. -/
def truthy : Json → Bool
  | .str s => s != ""
  | .num n => n != 0
  | .bool b => b
  | .null => false
  | .arr items => !items.isEmpty
  | .obj fields => !fields.isEmpty

/-- Python's `a or b`: `a` when truthy, else `b`. -/
def pyOr (a b : Json) : Json :=
  if a.truthy then a else b

end Json

/-- `k in data` on a Python dict: key membership. -/
def hasKey (fields : List (String × Json)) (k : String) : Bool :=
  fields.any (fun p => p.1 == k)

/-- First binding of `k` in the field list (dict keys are unique after
`json.load`, so first-match equals dict lookup). -/
def lookupJ (fields : List (String × Json)) (k : String) : Option Json :=
  fields.lookup k

/-- `data.get(k, default)` on a Python dict. -/
def getD (fields : List (String × Json)) (k : String) (dflt : Json) : Json :=
  (lookupJ fields k).getD dflt

mutual

/-- Python `repr` of a JSON value (used by `str` on containers).
String escaping inside `repr` is not modelled; no claim depends on it. -/
def pyRepr : Json → String
  | .str s => "\x27" ++ s ++ "\x27"
  | .num n => toString n
  | .bool true => "True"
  | .bool false => "False"
  | .null => "None"
  | .arr items => "[" ++ pyReprList items ++ "]"
  | .obj fields => "\x7b" ++ pyReprFields fields ++ "\x7d"

def pyReprList : List Json → String
  | [] => ""
  | [x] => pyRepr x
  | x :: xs => pyRepr x ++ ", " ++ pyReprList xs

def pyReprFields : List (String × Json) → String
  | [] => ""
  | [(k, v)] => "\x27" ++ k ++ "\x27: " ++ pyRepr v
  | (k, v) :: fs => "\x27" ++ k ++ "\x27: " ++ pyRepr v ++ ", " ++ pyReprFields fs

end

/-- Python `str(x)` of a JSON value, as used inside f-strings:
bare text for strings, `True`/`False`/`None` for the other scalars,
`repr`-style rendering for containers. -/
def pyStr : Json → String
  | .str s => s
  | .num n => toString n
  | .bool true => "True"
  | .bool false => "False"
  | .null => "None"
  | .arr items => "[" ++ pyReprList items ++ "]"
  | .obj fields => "\x7b" ++ pyReprFields fields ++ "\x7d"

/-- The Profile guard of `flatten_json` (json_engine.py line 28):
`"name" in data and ("title" in data or "department" in data or "phd" in data)`. -/
def profileCond (fields : List (String × Json)) : Bool :=
  hasKey fields "name" &&
    (hasKey fields "title" || hasKey fields "department" || hasKey fields "phd")

/-- The Event guard of `flatten_json` (json_engine.py line 38):
`("event" in data or "name" in data) and ("date" in data or "from_date" in data)`.
Note: the code checks `"from_date"` alone, not both `from_date` and `to_date`. -/
def eventCond (fields : List (String × Json)) : Bool :=
  (hasKey fields "event" || hasKey fields "name") &&
    (hasKey fields "date" || hasKey fields "from_date")

/-- The sentence emitted for a Profile node (json_engine.py line 34):
`f"{name} is a {title} in the {dept} department. {name} holds {phd}. Email: {email}."`
with each field fetched by `data.get(key, "")`. -/
def profileSentence (fields : List (String × Json)) : String :=
  let name := pyStr (getD fields "name" (.str ""))
  let title := pyStr (getD fields "title" (.str ""))
  let dept := pyStr (getD fields "department" (.str ""))
  let phd := pyStr (getD fields "phd" (.str ""))
  let email := pyStr (getD fields "email" (.str ""))
  name ++ " is a " ++ title ++ " in the " ++ dept ++ " department. " ++
    name ++ " holds " ++ phd ++ ". Email: " ++ email ++ "."

/-- The sentence emitted for an Event node (json_engine.py lines 39-41):
`name = data.get("event") or data.get("name")`,
`date = data.get("date") or f"{data.get('from_date')} to {data.get('to_date')}"`,
`f"{name} is on {date}."`. -/
def eventSentence (fields : List (String × Json)) : String :=
  let name := Json.pyOr (getD fields "event" .null) (getD fields "name" .null)
  let date := Json.pyOr (getD fields "date" .null)
    (.str (pyStr (getD fields "from_date" .null) ++ " to " ++
           pyStr (getD fields "to_date" .null)))
  pyStr name ++ " is on " ++ pyStr date ++ "."

mutual

/-- `flatten_json` (json_engine.py lines 22-56). The `parent_key` argument is
threaded exactly as in the source; it only builds diagnostic key paths and
never reaches the emitted strings. -/
def flatten_json (data : Json) (parent_key : String := "") : List String :=
  match data with
  | .obj fields =>
    if profileCond fields then
      [profileSentence fields]
    else if eventCond fields then
      [eventSentence fields]
    else
      flattenFields fields parent_key
  | .arr items => flattenList items parent_key
  | .str s => [pyStr (.str s)]
  | .num n => [pyStr (.num n)]
  | .bool b => [pyStr (.bool b)]
  | .null => [pyStr .null]

/-- The generic-object recursion of `flatten_json` (lines 44-47):
`for k, v in data.items(): docs.extend(flatten_json(v, parent_key + "." + k if parent_key else k))`. -/
def flattenFields (fields : List (String × Json)) (parent_key : String) : List String :=
  match fields with
  | [] => []
  | (k, v) :: fs =>
    flatten_json v (if parent_key ≠ "" then parent_key ++ "." ++ k else k) ++
      flattenFields fs parent_key

/-- The array recursion of `flatten_json` (lines 49-51). -/
def flattenList (items : List Json) (parent_key : String) : List String :=
  match items with
  | [] => []
  | x :: xs => flatten_json x parent_key ++ flattenList xs parent_key

end

mutual

/-- Spec-side definition (spec §4.2 steps 4-5): the depth-first list of leaf
scalars' string forms of a JSON tree, in document order. Used to compare
`flatten_json` against the spec's traversal contract on generic trees. -/
def leafStrings : Json → List String
  | .obj fields => leafStringsFields fields
  | .arr items => leafStringsList items
  | .str s => [pyStr (.str s)]
  | .num n => [pyStr (.num n)]
  | .bool b => [pyStr (.bool b)]
  | .null => [pyStr .null]

def leafStringsFields : List (String × Json) → List String
  | [] => []
  | (_, v) :: fs => leafStrings v ++ leafStringsFields fs

def leafStringsList : List Json → List String
  | [] => []
  | x :: xs => leafStrings x ++ leafStringsList xs

end

mutual

/-- No dict node anywhere in the tree satisfies the Profile or Event guard
(the hypothesis of the spec's generic-traversal property). -/
def noSpecial : Json → Bool
  | .obj fields => !profileCond fields && !eventCond fields && noSpecialFields fields
  | .arr items => noSpecialList items
  | .str _ => true
  | .num _ => true
  | .bool _ => true
  | .null => true

def noSpecialFields : List (String × Json) → Bool
  | [] => true
  | (_, v) :: fs => noSpecial v && noSpecialFields fs

def noSpecialList : List Json → Bool
  | [] => true
  | x :: xs => noSpecial x && noSpecialList xs

end

/-- One flattened record unit: `Document(page_content=text, metadata={"source": fname, "item_index": i})`
(json_engine.py lines 77-80). -/
structure RecordDoc where
  page_content : String
  source : String
  item_index : Nat
deriving Repr, DecidableEq

/-- One source file handed to the JSON loader: its name and its parsed
content (`none` models a `json.load` failure, which the loader skips). -/
structure JsonFile where
  name : String
  content : Option Json

/-- Python's `fname.endswith(".json")`, modelled on character lists. -/
def endsWithJson (name : String) : Bool :=
  ".json".toList.isSuffixOf name.toList

/-- `load_json_documents` (json_engine.py lines 59-82): keep `.json` files,
skip unparseable ones, flatten the rest and enumerate the flattened texts. -/
def load_json_documents (files : List JsonFile) : List RecordDoc :=
  files.flatMap fun f =>
    if endsWithJson f.name then
      match f.content with
      | none => []
      | some data =>
        (flatten_json data).enum.map fun p =>
          { page_content := p.2, source := f.name, item_index := p.1 }
    else []

/-- `initialize_json_rag` (json_engine.py lines 85-108), with the external
embedding/Chroma construction modelled as returning the document list on
success: `if not docs: raise RuntimeError(...)`. -/
def initialize_json_rag (files : List JsonFile) : Except String (List RecordDoc) :=
  let docs := load_json_documents files
  if docs.isEmpty then
    .error "No JSON docs found"
  else
    .ok docs

/-- A PDF chunk as retrieved from the vector store: `page_content` and the
`source` metadata field. -/
structure PdfDoc where
  page_content : String
  source : String
deriving Repr, DecidableEq

/-- Result of `initialize_pdf_rag_blocking`: either the persisted store was
loaded, or a new store was built from the given chunk list. -/
inductive PdfStore where
  | loaded
  | built (chunks : List PdfDoc)
deriving Repr, DecidableEq

/-- `initialize_pdf_rag_blocking` (pdf_engine.py lines 21-63): after
`persist_dir.mkdir(...)` the directory exists, so the load branch fires iff
the persisted directory is non-empty; otherwise every chunk produced by the
loader/splitter is handed to `Chroma.from_documents`. The function contains
no check that any source was found: the external store construction is
modelled as total, so an empty chunk list yields a successfully built empty
store. -/
def initialize_pdf_rag_blocking (persistNonEmpty : Bool) (chunks : List PdfDoc) :
    Except String PdfStore :=
  if persistNonEmpty then
    .ok .loaded
  else
    .ok (.built chunks)

/-- Python's `sorted(l, key=f, reverse=True)`: stable descending insertion
sort. An element is inserted after every earlier element whose key is ≥ its
own, so equal keys keep their original relative order (Python's sort is
stable, and `reverse=True` preserves stability among equal keys). -/
def insertDesc (key : α → Int) (x : α) : List α → List α
  | [] => [x]
  | y :: ys => if key y < key x then x :: y :: ys else y :: insertDesc key x ys

/-- Fold of `insertDesc` over the list in original order. -/
def sortDesc (key : α → Int) (l : List α) : List α :=
  l.foldl (fun acc x => insertDesc key x acc) []

/-- The caller-visible part of `get_pdf_rag_answer_async`'s return value. -/
structure PdfAnswer where
  context : String
  sources : List String
deriving Repr, DecidableEq

/-- Lines 91-95 of pdf_engine.py: score every `(query, chunk-text)` pair
with the cross-encoder and sort the `(doc, score)` pairs by
`sorted(zip(docs, scores), key=lambda x: x[1], reverse=True)` —
`sortDesc` on the second component. -/
def rerankList (query : String) (f : String → String → Int)
    (docs : List PdfDoc) : List (PdfDoc × Int) :=
  sortDesc (fun x => x.2) (docs.zip (docs.map fun d => f query d.page_content))

/-- `get_pdf_rag_answer_async` (pdf_engine.py lines 72-103), after the
similarity search returned `docs`. The cross-encoder is modelled as an
abstract score function `predict : query → text → Int` (`none` models an
unset `reranker`). -/
def get_pdf_rag_answer (query : String) (top_n : Nat)
    (predict : Option (String → String → Int)) (docs : List PdfDoc) : PdfAnswer :=
  if docs.isEmpty then
    { context := "", sources := [] }
  else
    match predict with
    | some f =>
      let top_docs := (rerankList query f docs).take top_n
      { context := String.intercalate "\n\n" (top_docs.map fun x => x.1.page_content),
        sources := top_docs.map fun x => x.1.source }
    | none =>
      { context := String.intercalate "\n\n" ((docs.take top_n).map fun d => d.page_content),
        sources := (docs.take top_n).map fun d => d.source }

/-- One conversation turn (session_manager.py lines 163-167). The ISO
timestamp string is modelled by the `Nat` clock value at which it was taken. -/
structure Interaction where
  timestamp : Nat
  question : String
  answer : String
deriving Repr, DecidableEq

/-- One archived session (session_manager.py lines 179-185). -/
structure ArchivedSession where
  session_id : Nat
  start_time : Nat
  end_time : Nat
  conversation : List Interaction
  message_count : Nat
deriving Repr, DecidableEq

/-- In-memory state of `UserSession` (session_manager.py lines 133-157):
`last_activity`, `session_start_time`, `current_conversation`, and the
persistent `history["all_sessions"]` list. -/
structure UserSession where
  last_activity : Nat
  session_start_time : Nat
  current_conversation : List Interaction
  all_sessions : List ArchivedSession
deriving Repr, DecidableEq

/-- `UserSession.__init__` for a user with no on-disk history
(session_manager.py lines 138-157). -/
def mkUserSession (now : Nat) : UserSession :=
  { last_activity := now
    session_start_time := now
    current_conversation := []
    all_sessions := [] }

/-- `UserSession.update_activity` (lines 213-215). -/
def update_activity (now : Nat) (s : UserSession) : UserSession :=
  { s with last_activity := now }

/-- `UserSession.add_interaction` (lines 159-173): update activity, append
the interaction, auto-save (a no-op on in-memory state). -/
def add_interaction (now : Nat) (question answer : String) (s : UserSession) :
    UserSession :=
  let s := update_activity now s
  { s with current_conversation :=
      s.current_conversation ++ [{ timestamp := now, question := question, answer := answer }] }

/-- `UserSession.start_new_session` (lines 175-197): if the current
conversation is non-empty, append an archived session numbered
`len(all_sessions) + 1` carrying a copy of the conversation and its length;
then reset the conversation, the session start time and the activity time. -/
def start_new_session (now : Nat) (s : UserSession) : UserSession :=
  let s1 :=
    if s.current_conversation.isEmpty then s
    else
      { s with all_sessions := s.all_sessions ++
          [{ session_id := s.all_sessions.length + 1
             start_time := s.session_start_time
             end_time := now
             conversation := s.current_conversation
             message_count := s.current_conversation.length }] }
  { s1 with current_conversation := [], session_start_time := now, last_activity := now }

/-- The goodbye phrase list of `is_goodbye_message` (lines 104-108). -/
def goodbye_phrases : List String :=
  ["goodbye", "bye", "see you", "exit", "quit",
   "thank you bye", "good bye", "farewell",
   "see you later", "talk to you later", "ttyl"]

/-- The whitespace characters stripped by Python's `str.strip()` (ASCII). -/
def isPyWs (c : Char) : Bool :=
  c == ' ' || c == '\t' || c == '\n' || c == '\r' ||
    c == Char.ofNat 11 || c == Char.ofNat 12

/-- Python `str.lower()`, modelled for ASCII text. -/
def pyLower (s : String) : String :=
  String.mk (s.toList.map Char.toLower)

/-- Python `str.strip()` on a character list: drop leading and trailing
whitespace. -/
def pyStripList (cs : List Char) : List Char :=
  ((cs.dropWhile isPyWs).reverse.dropWhile isPyWs).reverse

/-- `pat in s` on character lists: `pat` occurs contiguously in `s`. -/
def substrB (pat : List Char) : List Char → Bool
  | [] => pat.isEmpty
  | c :: cs => pat.isPrefixOf (c :: cs) || substrB pat cs

/-- Python's `phrase in message` substring test on strings. -/
def pyIn (pat s : String) : Bool :=
  substrB pat.toList s.toList

/-- `NexiSessionManager.is_goodbye_message` (lines 102-111):
`message_lower = message.lower().strip()`, then
`any(phrase in message_lower for phrase in goodbye_phrases)`. -/
def is_goodbye_message (message : String) : Bool :=
  goodbye_phrases.any fun phrase =>
    substrB phrase.toList (pyStripList (pyLower message).toList)

/-- The per-session effect of `NexiSessionManager.handle_message`
(lines 113-126) on the resolved user's session: `get_or_create_session`
updates the activity time (or creates a fresh session, handled by the
caller supplying `mkUserSession`), `add_interaction` appends the turn, and
a goodbye message triggers `end_session`, i.e. `save()` (no-op in memory)
followed by `start_new_session`. Returns the new state and the `bool` the
method returns (`True` iff the session was ended). -/
def handle_message (now : Nat) (message response : String) (s : UserSession) :
    UserSession × Bool :=
  let s1 := add_interaction now message response (update_activity now s)
  if is_goodbye_message message then
    (start_new_session now s1, true)
  else
    (s1, false)

/-- `NexiSessionManager.end_session` applied to the whole session map
(lines 74-87): the entry for `uid`, if any, is saved (no-op) and rolled
over with `start_new_session`. -/
def end_session (now : Nat) (uid : String) (mgr : List (String × UserSession)) :
    List (String × UserSession) :=
  mgr.map fun p => if p.1 == uid then (p.1, start_new_session now p.2) else p

/-- `NexiSessionManager.check_inactive_sessions` (lines 89-100): first
collect every user with `now - last_activity > timeout`, then call
`end_session` for each collected user. -/
def check_inactive_sessions (timeout now : Nat)
    (mgr : List (String × UserSession)) : List (String × UserSession) :=
  let inactive := (mgr.filter fun p => timeout < now - p.2.last_activity).map
    fun p => p.1
  inactive.foldl (fun acc uid => end_session now uid acc) mgr

/-- The background cleanup loop (`_cleanup_loop`, lines 44-54): sleep
`interval` seconds, then run `check_inactive_sessions`; the state after `n`
iterations, the k-th poll happening at wall-clock time `k * interval`. -/
def pollRun (timeout interval : Nat) : Nat → List (String × UserSession) →
    List (String × UserSession)
  | 0, mgr => mgr
  | n + 1, mgr => check_inactive_sessions timeout ((n + 1) * interval)
      (pollRun timeout interval n mgr)

/-- The archived-sessions list is numbered consecutively `1..n`
(spec §3 invariant). -/
def Numbered (l : List ArchivedSession) : Prop :=
  ∀ i (h : i < l.length), (l.get ⟨i, h⟩).session_id = i + 1

/-- The operations that mutate a `UserSession`: recording an interaction and
a rollover (from either termination condition). -/
inductive SessionOp : Type where
  | record (now : Nat) (question answer : String)
  | rollover (now : Nat)

/-- Apply one session operation. -/
def applyOp (s : UserSession) : SessionOp → UserSession
  | .record now q a => add_interaction now q a s
  | .rollover now => start_new_session now s

/-- Apply a sequence of session operations in order. -/
def applyOps (s : UserSession) (ops : List SessionOp) : UserSession :=
  ops.foldl applyOp s

/-- Descending order by key: every element's key is ≥ every later key. -/
def SortedDesc (key : α → Int) (l : List α) : Prop :=
  List.Pairwise (fun a b => key b ≤ key a) l

/-- How `flatten_json` renders a Profile template field: the field's string
form when the key is present, the empty string when it is missing
(`data.get(k, "")`). -/
def renderField (fields : List (String × Json)) (k : String) : String :=
  match lookupJ fields k with
  | some v => pyStr v
  | none => ""

/-- The single-user session map of the spec's idle-timeout scenario
(spec §8): one message ("hello"/"hi") recorded at t = 0 into a fresh
session, nothing afterwards. -/
def scenarioM0 : List (String × UserSession) :=
  [("u", add_interaction 0 "hello" "hi" (mkUserSession 0))]

theorem hasKey_eq_isSome (fields : List (String × Json)) (k : String) :
    hasKey fields k = (lookupJ fields k).isSome := by
  induction fields with
  | nil => rfl
  | cons p fs ih =>
    obtain ⟨k', v⟩ := p
    by_cases h : k' = k
    · simp [hasKey, lookupJ, List.lookup, h]
    · have h' : (k == k') = false := by
        simp [h]
        exact fun hk => h hk.symm
      simp [hasKey, lookupJ, List.lookup, h'] at ih ⊢
      have h'' : (k' == k) = false := by simp [h]
      simp [h'', ih, hasKey, lookupJ]

theorem lookupJ_eq_none (fields : List (String × Json)) (k : String)
    (h : hasKey fields k = false) : lookupJ fields k = none := by
  have := hasKey_eq_isSome fields k
  rw [h] at this
  exact Option.not_isSome_iff_eq_none.mp (by rw [← this]; decide)

theorem renderField_eq (fields : List (String × Json)) (k : String) :
    renderField fields k = pyStr (getD fields k (.str "")) := by
  unfold renderField getD
  cases lookupJ fields k <;> rfl

/-- C8: every dict node containing key "name" and at least one of "title",
"department", "phd" is classified as Profile, and flattening it emits
exactly the sentence
"<name> is a <title> in the <department> department. <name> holds <phd>. Email: <email>."
where each template field renders as its string form when present and as
the empty string when missing; `flatten_json` is total, so no input raises
an error. -/
theorem profile_sentence_spec (fields : List (String × Json)) (pk : String)
    (h : profileCond fields = true) :
    flatten_json (.obj fields) pk =
      [renderField fields "name" ++ " is a " ++ renderField fields "title" ++
       " in the " ++ renderField fields "department" ++ " department. " ++
       renderField fields "name" ++ " holds " ++ renderField fields "phd" ++
       ". Email: " ++ renderField fields "email" ++ "."] := by
  simp only [flatten_json, h, if_pos]
  simp [profileSentence, renderField_eq]

/-- C8 witness: the spec's concrete Profile example. -/
theorem profile_sentence_spec_witness :
    flatten_json (.obj [("name", .str "Dr. X"), ("title", .str "Professor"),
      ("department", .str "CS"), ("phd", .str "PhD in AI"),
      ("email", .str "x@x.edu")]) =
    ["Dr. X is a Professor in the CS department. Dr. X holds PhD in AI. Email: x@x.edu."] := by
  have h := profile_sentence_spec
    [("name", .str "Dr. X"), ("title", .str "Professor"),
     ("department", .str "CS"), ("phd", .str "PhD in AI"),
     ("email", .str "x@x.edu")] "" (by decide)
  rw [h]
  decide

/-- C1 counterexample: the Event guard in the code requires only
`"from_date" in data`, not both `from_date` and `to_date`. The node
`{"name": "Sem Break", "from_date": "2024-12-20"}` (no `to_date`, no
`date`) IS classified as Event — one Event-template sentence is emitted,
with the missing `to_date` rendered as "None" — rather than being flattened
generically into its two leaf scalars as the claim requires. -/
theorem event_from_date_only_counterexample :
    flatten_json (.obj [("name", .str "Sem Break"),
      ("from_date", .str "2024-12-20")]) =
      ["Sem Break is on 2024-12-20 to None."] ∧
    flatten_json (.obj [("name", .str "Sem Break"),
      ("from_date", .str "2024-12-20")]) ≠
      ["Sem Break", "2024-12-20"] := by
  constructor
  · decide
  · decide

/-- C1 (amended): for every dict node that does not match the Profile rule,
if the node contains key "event" or key "name", and contains key "date" or
key "from_date" (to_date is NOT required), it is classified as Event and
exactly one sentence "<event-or-name> is on <date>." is emitted, where
<event-or-name> is the event field when truthy else the name field, and
<date> is the date field when truthy, otherwise
"<from_date> to <to_date>" with a missing to_date rendered as "None".
Conjuncts: the general emitted sentence; the date-present case; the
from/to-date case; and the from_date-without-to_date case. -/
theorem event_sentence_spec (fields : List (String × Json)) (pk : String)
    (hp : profileCond fields = false) (he : eventCond fields = true) :
    flatten_json (.obj fields) pk =
      [pyStr (Json.pyOr (getD fields "event" .null) (getD fields "name" .null)) ++
       " is on " ++
       pyStr (Json.pyOr (getD fields "date" .null)
         (.str (pyStr (getD fields "from_date" .null) ++ " to " ++
                pyStr (getD fields "to_date" .null)))) ++ "."] ∧
    (∀ d : String, lookupJ fields "date" = some (.str d) → d ≠ "" →
      flatten_json (.obj fields) pk =
        [pyStr (Json.pyOr (getD fields "event" .null) (getD fields "name" .null)) ++
         " is on " ++ d ++ "."]) ∧
    (∀ f t : String, hasKey fields "date" = false →
      lookupJ fields "from_date" = some (.str f) →
      lookupJ fields "to_date" = some (.str t) →
      flatten_json (.obj fields) pk =
        [pyStr (Json.pyOr (getD fields "event" .null) (getD fields "name" .null)) ++
         " is on " ++ f ++ " to " ++ t ++ "."]) ∧
    (∀ f : String, hasKey fields "date" = false →
      hasKey fields "to_date" = false →
      lookupJ fields "from_date" = some (.str f) →
      flatten_json (.obj fields) pk =
        [pyStr (Json.pyOr (getD fields "event" .null) (getD fields "name" .null)) ++
         " is on " ++ f ++ " to None."]) := by
  refine ⟨?_, ?_, ?_, ?_⟩
  · simp [flatten_json, hp, he, eventSentence]
  · intro d hd hd'
    have hd'' : (d != "") = true := by simpa using hd'
    simp [flatten_json, hp, he, eventSentence, getD, hd, Json.pyOr, Json.truthy,
      hd'', pyStr]
  · intro f t hnd hf ht
    have hdn : lookupJ fields "date" = none := lookupJ_eq_none _ _ hnd
    simp [flatten_json, hp, he, eventSentence, getD, hdn, hf, ht, Json.pyOr,
      Json.truthy, pyStr, String.append_assoc]
  · intro f hnd hnt hf
    have hdn : lookupJ fields "date" = none := lookupJ_eq_none _ _ hnd
    have htn : lookupJ fields "to_date" = none := lookupJ_eq_none _ _ hnt
    simp [flatten_json, hp, he, eventSentence, getD, hdn, htn, hf, Json.pyOr,
      Json.truthy, pyStr, String.append_assoc]

/-- C1 witness: the spec's Event examples, driven through
`event_sentence_spec` at concrete inputs. -/
theorem event_sentence_spec_witness :
    flatten_json (.obj [("event", .str "Dussehra"), ("date", .str "2024-10-12")]) =
      ["Dussehra is on 2024-10-12."] ∧
    flatten_json (.obj [("name", .str "Sem Break"), ("from_date", .str "2024-12-20"),
      ("to_date", .str "2025-01-05")]) =
      ["Sem Break is on 2024-12-20 to 2025-01-05."] := by
  constructor
  · have h := (event_sentence_spec
      [("event", .str "Dussehra"), ("date", .str "2024-10-12")] ""
      (by decide) (by decide)).2.1 "2024-10-12" (by rfl) (by decide)
    rw [h]; decide
  · have h := (event_sentence_spec
      [("name", .str "Sem Break"), ("from_date", .str "2024-12-20"),
       ("to_date", .str "2025-01-05")] ""
      (by decide) (by decide)).2.2.1 "2024-12-20" "2025-01-05"
      (by decide) (by rfl) (by rfl)
    rw [h]; decide

/-- C9: a dict node classified as Profile or Event emits exactly one
sentence and does not recurse into its values: the output has length one,
and it depends only on the node's bindings for the nine template keys —
any two field lists agreeing on those keys flatten identically, whatever
other (arbitrarily nested) fields they carry and whatever the key path is. -/
theorem special_node_no_recursion (fields fields' : List (String × Json))
    (pk pk' : String)
    (hclass : profileCond fields = true ∨ eventCond fields = true)
    (hagree : ∀ k ∈ ["name", "title", "department", "phd", "email", "event",
      "date", "from_date", "to_date"], lookupJ fields k = lookupJ fields' k) :
    (flatten_json (.obj fields) pk).length = 1 ∧
    flatten_json (.obj fields) pk = flatten_json (.obj fields') pk' := by
  have hk : ∀ k ∈ ["name", "title", "department", "phd", "email", "event",
      "date", "from_date", "to_date"], hasKey fields k = hasKey fields' k := by
    intro k hkmem
    rw [hasKey_eq_isSome, hasKey_eq_isSome, hagree k hkmem]
  have hpc : profileCond fields = profileCond fields' := by
    simp only [profileCond]
    rw [hk "name" (by simp), hk "title" (by simp), hk "department" (by simp),
      hk "phd" (by simp)]
  have hec : eventCond fields = eventCond fields' := by
    simp only [eventCond]
    rw [hk "event" (by simp), hk "name" (by simp), hk "date" (by simp),
      hk "from_date" (by simp)]
  have hps : profileSentence fields = profileSentence fields' := by
    simp only [profileSentence, getD]
    rw [hagree "name" (by simp), hagree "title" (by simp),
      hagree "department" (by simp), hagree "phd" (by simp),
      hagree "email" (by simp)]
  have hes : eventSentence fields = eventSentence fields' := by
    simp only [eventSentence, getD]
    rw [hagree "event" (by simp), hagree "name" (by simp),
      hagree "date" (by simp), hagree "from_date" (by simp),
      hagree "to_date" (by simp)]
  by_cases hp : profileCond fields = true
  · have hp' : profileCond fields' = true := by rw [← hpc]; exact hp
    simp [flatten_json, hp, hp', hps]
  · have hpf : profileCond fields = false := by simpa using hp
    have he : eventCond fields = true := hclass.resolve_left hp
    have hpf' : profileCond fields' = false := by rw [← hpc]; exact hpf
    have he' : eventCond fields' = true := by rw [← hec]; exact he
    simp [flatten_json, hpf, hpf', he, he', hes]

/-- C9 witness: an Event node carrying a nested dict in another field emits
one sentence, identical to the same node without the extra field; the
nested leaves are absent. -/
theorem special_node_no_recursion_witness :
    (flatten_json (.obj [("event", .str "Holi"), ("date", .str "2025-03-14"),
      ("details", .obj [("venue", .str "Quad"), ("open", .bool true)])])).length = 1 ∧
    flatten_json (.obj [("event", .str "Holi"), ("date", .str "2025-03-14"),
      ("details", .obj [("venue", .str "Quad"), ("open", .bool true)])]) =
      flatten_json (.obj [("event", .str "Holi"), ("date", .str "2025-03-14")]) := by
  exact special_node_no_recursion
    [("event", .str "Holi"), ("date", .str "2025-03-14"),
      ("details", .obj [("venue", .str "Quad"), ("open", .bool true)])]
    [("event", .str "Holi"), ("date", .str "2025-03-14")] "" ""
    (Or.inr (by decide)) (by intro k hk; fin_cases hk <;> rfl)

mutual

theorem flatten_noSpecial_aux : ∀ (t : Json) (pk : String),
    noSpecial t = true → flatten_json t pk = leafStrings t
  | .str _, _, _ => rfl
  | .num _, _, _ => rfl
  | .bool _, _, _ => rfl
  | .null, _, _ => rfl
  | .arr items, pk, h => by
    simp only [flatten_json, leafStrings]
    exact flattenList_noSpecial_aux items pk (by simpa [noSpecial] using h)
  | .obj fields, pk, h => by
    simp only [noSpecial, Bool.and_eq_true, Bool.not_eq_true'] at h
    obtain ⟨⟨hp, he⟩, hf⟩ := h
    simp only [flatten_json, leafStrings, hp, he, Bool.false_eq_true, if_false]
    exact flattenFields_noSpecial_aux fields pk hf

theorem flattenFields_noSpecial_aux : ∀ (fs : List (String × Json)) (pk : String),
    noSpecialFields fs = true → flattenFields fs pk = leafStringsFields fs
  | [], _, _ => rfl
  | (k, v) :: fs', pk, h => by
    simp only [noSpecialFields, Bool.and_eq_true] at h
    simp only [flattenFields, leafStringsFields]
    rw [flatten_noSpecial_aux v _ h.1, flattenFields_noSpecial_aux fs' pk h.2]

theorem flattenList_noSpecial_aux : ∀ (items : List Json) (pk : String),
    noSpecialList items = true → flattenList items pk = leafStringsList items
  | [], _, _ => rfl
  | x :: xs, pk, h => by
    simp only [noSpecialList, Bool.and_eq_true] at h
    simp only [flattenList, leafStringsList]
    rw [flatten_noSpecial_aux x pk h.1, flattenList_noSpecial_aux xs pk h.2]

end

/-- C3: on any JSON tree in which no dict node matches the Profile or Event
guard, `flatten_json` emits exactly the depth-first list of leaf scalars'
string forms, in document order — each leaf exactly once, no loss and no
duplication (list equality, which implies multiset equality). -/
theorem generic_flatten_visits_all_leaves (t : Json) (pk : String)
    (h : noSpecial t = true) : flatten_json t pk = leafStrings t :=
  flatten_noSpecial_aux t pk h

/-- C3 witness: a nested generic structure with duplicated scalar values. -/
theorem generic_flatten_visits_all_leaves_witness :
    flatten_json (.obj [("a", .arr [.num 1, .str "x", .arr [.bool true, .null]]),
      ("b", .obj [("c", .str "x"), ("d", .num 1)])]) =
    leafStrings (.obj [("a", .arr [.num 1, .str "x", .arr [.bool true, .null]]),
      ("b", .obj [("c", .str "x"), ("d", .num 1)])]) :=
  generic_flatten_visits_all_leaves _ "" (by decide)

theorem start_new_session_all_of_ne (s : UserSession) (now : Nat)
    (h : s.current_conversation ≠ []) :
    (start_new_session now s).all_sessions =
      s.all_sessions ++
        [{ session_id := s.all_sessions.length + 1,
           start_time := s.session_start_time,
           end_time := now,
           conversation := s.current_conversation,
           message_count := s.current_conversation.length }] := by
  have h' : s.current_conversation.isEmpty = false := by
    simpa [List.isEmpty_iff] using h
  simp [start_new_session, h']

theorem start_new_session_all_of_empty (s : UserSession) (now : Nat)
    (h : s.current_conversation = []) :
    (start_new_session now s).all_sessions = s.all_sessions := by
  simp [start_new_session, h]

theorem numbered_append (l : List ArchivedSession) (a : ArchivedSession)
    (h : Numbered l) (ha : a.session_id = l.length + 1) :
    Numbered (l ++ [a]) := by
  intro i hi
  rw [List.length_append, List.length_singleton] at hi
  rcases Nat.lt_or_ge i l.length with hlt | hge
  · have := h i hlt
    simpa [List.get_eq_getElem, List.getElem_append_left hlt] using this
  · have hie : i = l.length := Nat.le_antisymm (Nat.lt_succ_iff.mp hi) hge
    subst hie
    simpa [List.get_eq_getElem, List.getElem_concat_length] using ha

theorem applyOp_numbered (s : UserSession) (op : SessionOp)
    (h : Numbered s.all_sessions) :
    Numbered (applyOp s op).all_sessions ∧
      s.all_sessions <+: (applyOp s op).all_sessions := by
  cases op with
  | record now q a =>
    have : (applyOp s (.record now q a)).all_sessions = s.all_sessions := rfl
    rw [this]
    exact ⟨h, List.prefix_refl _⟩
  | rollover now =>
    by_cases hc : s.current_conversation = []
    · have := start_new_session_all_of_empty s now hc
      simp only [applyOp, this]
      exact ⟨h, List.prefix_refl _⟩
    · have := start_new_session_all_of_ne s now hc
      simp only [applyOp, this]
      exact ⟨numbered_append _ _ h rfl, List.prefix_append _ _⟩

theorem applyOps_numbered (ops : List SessionOp) : ∀ s : UserSession,
    Numbered s.all_sessions →
    Numbered (applyOps s ops).all_sessions ∧
      s.all_sessions <+: (applyOps s ops).all_sessions := by
  induction ops with
  | nil => exact fun s h => ⟨h, List.prefix_refl _⟩
  | cons op ops ih =>
    intro s h
    have h1 := applyOp_numbered s op h
    have h2 := ih (applyOp s op) h1.1
    exact ⟨h2.1, h1.2.trans h2.2⟩

/-- C2: a rollover on a non-empty current conversation appends exactly one
archived session, numbered `len(all_sessions) + 1`, carrying a copy of the
conversation, its length as message count, and the session start/end
timestamps; afterwards the current conversation is empty and the session
start time is reset to now. Moreover, starting from consecutively numbered
archives, any sequence of recorded interactions and rollovers keeps the
archives numbered consecutively `1..n`, and the prior archives are never
removed or renumbered (the old list stays a prefix). -/
theorem rollover_archival_spec (s : UserSession) (now : Nat)
    (hne : s.current_conversation ≠ [])
    (hnum : Numbered s.all_sessions) :
    (start_new_session now s).all_sessions =
      s.all_sessions ++
        [{ session_id := s.all_sessions.length + 1,
           start_time := s.session_start_time,
           end_time := now,
           conversation := s.current_conversation,
           message_count := s.current_conversation.length }] ∧
    (start_new_session now s).current_conversation = [] ∧
    (start_new_session now s).session_start_time = now ∧
    ∀ ops : List SessionOp,
      Numbered (applyOps s ops).all_sessions ∧
        s.all_sessions <+: (applyOps s ops).all_sessions := by
  refine ⟨start_new_session_all_of_ne s now hne, rfl, rfl, ?_⟩
  exact fun ops => applyOps_numbered ops s hnum

/-- C2 witness: one recorded interaction then a rollover at t = 7. -/
theorem rollover_archival_spec_witness :
    (start_new_session 7 (add_interaction 0 "q" "a" (mkUserSession 0))).all_sessions =
      [{ session_id := 1, start_time := 0, end_time := 7,
         conversation := [{ timestamp := 0, question := "q", answer := "a" }],
         message_count := 1 }] ∧
    (start_new_session 7 (add_interaction 0 "q" "a" (mkUserSession 0))).current_conversation = [] := by
  have h := rollover_archival_spec (add_interaction 0 "q" "a" (mkUserSession 0)) 7
    (by decide)
    (by intro i hi
        exact absurd hi (by simp [add_interaction, update_activity, mkUserSession]))
  exact ⟨by rw [h.1]; rfl, h.2.1⟩

theorem substrB_iff (p : List Char) : ∀ s : List Char,
    substrB p s = true ↔ p <:+: s
  | [] => by
    simp only [substrB, List.isEmpty_iff, List.infix_nil]
  | c :: cs => by
    simp only [substrB, Bool.or_eq_true, List.isPrefixOf_iff_prefix,
      substrB_iff p cs, List.infix_cons_iff]

theorem infix_dropWhile_iff (p : List Char) (c0 : Char)
    (hh : p.head? = some c0) (hc : isPyWs c0 = false) :
    ∀ s : List Char, (p <:+: s.dropWhile isPyWs ↔ p <:+: s)
  | [] => by simp [List.dropWhile]
  | c :: cs => by
    rw [List.dropWhile_cons]
    by_cases hws : isPyWs c = true
    · rw [if_pos hws]
      rw [infix_dropWhile_iff p c0 hh hc cs]
      constructor
      · exact fun h => h.trans (List.suffix_cons c cs).isInfix
      · intro h
        rcases List.infix_cons_iff.mp h with hpre | hinf
        · cases p with
          | nil => exact List.nil_infix
          | cons a p' =>
            have ha : a = c0 := by simpa using hh
            have hac : a = c := List.cons_prefix_cons.mp hpre |>.1
            rw [ha] at hac
            rw [← hac] at hws
            rw [hws] at hc
            exact absurd hc (by simp)
        · exact hinf
    · rw [if_neg hws]

theorem infix_strip_iff (p : List Char) (c0 cL : Char)
    (h0 : p.head? = some c0) (hL : p.getLast? = some cL)
    (hc0 : isPyWs c0 = false) (hcL : isPyWs cL = false) (s : List Char) :
    p <:+: pyStripList s ↔ p <:+: s := by
  unfold pyStripList
  have hrev : p.reverse.head? = some cL := by
    rw [List.head?_reverse p]; exact hL
  constructor
  · intro h
    have h1 : p.reverse.reverse <:+:
        ((s.dropWhile isPyWs).reverse.dropWhile isPyWs).reverse := by
      simpa using h
    have h2 := List.reverse_infix.mp h1
    have h3 := (infix_dropWhile_iff p.reverse cL hrev hcL _).mp h2
    have h4 : p <:+: s.dropWhile isPyWs := List.reverse_infix.mp h3
    exact (infix_dropWhile_iff p c0 h0 hc0 s).mp h4
  · intro h
    have h1 := (infix_dropWhile_iff p c0 h0 hc0 s).mpr h
    have h2 : p.reverse <:+: (s.dropWhile isPyWs).reverse :=
      List.reverse_infix.mpr h1
    have h3 := (infix_dropWhile_iff p.reverse cL hrev hcL _).mpr h2
    have h4 := List.reverse_infix.mpr h3
    simpa using h4

theorem strip_infix_phrase (phrase : String) (hmem : phrase ∈ goodbye_phrases)
    (cs : List Char) :
    phrase.toList <:+: pyStripList cs ↔ phrase.toList <:+: cs := by
  fin_cases hmem
  · exact infix_strip_iff _ 'g' 'e' (by decide) (by decide) (by decide) (by decide) cs
  · exact infix_strip_iff _ 'b' 'e' (by decide) (by decide) (by decide) (by decide) cs
  · exact infix_strip_iff _ 's' 'u' (by decide) (by decide) (by decide) (by decide) cs
  · exact infix_strip_iff _ 'e' 't' (by decide) (by decide) (by decide) (by decide) cs
  · exact infix_strip_iff _ 'q' 't' (by decide) (by decide) (by decide) (by decide) cs
  · exact infix_strip_iff _ 't' 'e' (by decide) (by decide) (by decide) (by decide) cs
  · exact infix_strip_iff _ 'g' 'e' (by decide) (by decide) (by decide) (by decide) cs
  · exact infix_strip_iff _ 'f' 'l' (by decide) (by decide) (by decide) (by decide) cs
  · exact infix_strip_iff _ 's' 'r' (by decide) (by decide) (by decide) (by decide) cs
  · exact infix_strip_iff _ 't' 'r' (by decide) (by decide) (by decide) (by decide) cs
  · exact infix_strip_iff _ 't' 'l' (by decide) (by decide) (by decide) (by decide) cs

theorem is_goodbye_iff (m : String) :
    is_goodbye_message m = true ↔
      ∃ phrase ∈ goodbye_phrases, phrase.toList <:+: (pyLower m).toList := by
  unfold is_goodbye_message
  rw [List.any_eq_true]
  constructor
  · rintro ⟨phrase, hmem, hsub⟩
    exact ⟨phrase, hmem,
      (strip_infix_phrase phrase hmem _).mp ((substrB_iff _ _).mp hsub)⟩
  · rintro ⟨phrase, hmem, hinf⟩
    exact ⟨phrase, hmem,
      (substrB_iff _ _).mpr ((strip_infix_phrase phrase hmem _).mpr hinf)⟩

/-- C6: handling a recorded interaction triggers a rollover synchronously
(the returned flag is true and one archived session is appended) if and
only if the question text, lowercased, contains some phrase of the fixed
goodbye set as a substring; when no phrase occurs, no rollover happens and
the archived sessions are untouched. (The code additionally strips
surrounding whitespace before testing, which cannot change the outcome
since no phrase starts or ends with whitespace.) -/
theorem goodbye_triggers_rollover (now : Nat) (m r : String) (s : UserSession) :
    ((handle_message now m r s).2 = true ↔
      ∃ phrase ∈ goodbye_phrases, phrase.toList <:+: (pyLower m).toList) ∧
    ((handle_message now m r s).2 = true →
      (handle_message now m r s).1.all_sessions.length =
        s.all_sessions.length + 1) ∧
    ((handle_message now m r s).2 = false →
      (handle_message now m r s).1.all_sessions = s.all_sessions) := by
  have hsnd : (handle_message now m r s).2 = is_goodbye_message m := by
    unfold handle_message
    by_cases hg : is_goodbye_message m <;> simp [hg]
  refine ⟨by rw [hsnd]; exact is_goodbye_iff m, ?_, ?_⟩
  · intro ht
    rw [hsnd] at ht
    have hne : (add_interaction now m r (update_activity now s)).current_conversation ≠ [] := by
      simp [add_interaction, update_activity]
    unfold handle_message
    simp only [ht, if_true]
    rw [start_new_session_all_of_ne _ _ hne]
    simp [add_interaction, update_activity]
  · intro hf
    rw [hsnd] at hf
    unfold handle_message
    simp only [hf, Bool.false_eq_true, if_false]
    simp [add_interaction, update_activity]

/-- C6 witness: the message "ok bye" (which contains the phrase "bye")
triggers a rollover upon recording. -/
theorem goodbye_triggers_rollover_witness :
    (handle_message 0 "ok bye" "resp" (mkUserSession 0)).2 = true ∧
    (handle_message 0 "ok bye" "resp" (mkUserSession 0)).1.all_sessions.length = 1 := by
  have h := goodbye_triggers_rollover 0 "ok bye" "resp" (mkUserSession 0)
  have ht : (handle_message 0 "ok bye" "resp" (mkUserSession 0)).2 = true :=
    h.1.mpr ⟨"bye", by decide, by decide⟩
  refine ⟨ht, ?_⟩
  have hlen := h.2.1 ht
  simpa [mkUserSession] using hlen

/-- C10: when a goodbye message is handled, the interaction is appended to
the current conversation before the rollover, so the terminating exchange
is the last Interaction of the newly created archived session and is
counted in its message count; the current conversation afterwards is empty. -/
theorem goodbye_final_exchange_archived (now : Nat) (m r : String)
    (s : UserSession) (hg : is_goodbye_message m = true) :
    (handle_message now m r s).1.current_conversation = [] ∧
    ∃ a : ArchivedSession,
      (handle_message now m r s).1.all_sessions.getLast? = some a ∧
      a.conversation = s.current_conversation ++
        [{ timestamp := now, question := m, answer := r }] ∧
      a.message_count = s.current_conversation.length + 1 ∧
      a.conversation.getLast? =
        some { timestamp := now, question := m, answer := r } := by
  unfold handle_message
  simp only [hg, if_true]
  have hne : (add_interaction now m r (update_activity now s)).current_conversation ≠ [] := by
    simp [add_interaction, update_activity]
  have harch := start_new_session_all_of_ne _ now hne
  refine ⟨rfl,
    ⟨{ session_id := (add_interaction now m r (update_activity now s)).all_sessions.length + 1,
       start_time := (add_interaction now m r (update_activity now s)).session_start_time,
       end_time := now,
       conversation := (add_interaction now m r (update_activity now s)).current_conversation,
       message_count := (add_interaction now m r (update_activity now s)).current_conversation.length },
     ?_, ?_, ?_, ?_⟩⟩
  · rw [harch]
    exact List.getLast?_concat _
  · simp [add_interaction, update_activity]
  · simp [add_interaction, update_activity]
  · simp [add_interaction, update_activity, List.getLast?_concat]

/-- C10 witness: a goodbye as the very first message of a fresh session. -/
theorem goodbye_final_exchange_archived_witness :
    (handle_message 5 "bye" "ok" (mkUserSession 0)).1.current_conversation = [] ∧
    ((handle_message 5 "bye" "ok" (mkUserSession 0)).1.all_sessions.getLast?).map
      (fun a => a.message_count) = some 1 := by
  have h := goodbye_final_exchange_archived 5 "bye" "ok" (mkUserSession 0) (by decide)
  obtain ⟨hconv, a, hlast, hca, hmc, hfin⟩ := h
  refine ⟨hconv, ?_⟩
  rw [hlast]
  simp [hmc, mkUserSession]

theorem end_session_foldl (now : Nat) : ∀ us : List String, us.Nodup →
    ∀ m : List (String × UserSession),
    us.foldl (fun acc uid => end_session now uid acc) m =
      m.map (fun p => if p.1 ∈ us then (p.1, start_new_session now p.2) else p) := by
  intro us
  induction us with
  | nil =>
    intro _ m
    simp
  | cons u us ih =>
    intro hnd m
    have hu : u ∉ us := (List.nodup_cons.mp hnd).1
    have hus : us.Nodup := (List.nodup_cons.mp hnd).2
    have hstep : (u :: us).foldl (fun acc uid => end_session now uid acc) m =
        us.foldl (fun acc uid => end_session now uid acc) (end_session now u m) := rfl
    rw [hstep, ih hus (end_session now u m)]
    unfold end_session
    rw [List.map_map]
    apply List.map_congr_left
    intro p _
    obtain ⟨p1, p2⟩ := p
    by_cases hpu : p1 = u
    · subst hpu
      simp [Function.comp, hu, List.mem_cons]
    · simp [Function.comp, hpu, List.mem_cons]

theorem key_unique : ∀ m : List (String × UserSession),
    (m.map Prod.fst).Nodup →
    ∀ p q : String × UserSession, p ∈ m → q ∈ m → p.1 = q.1 → p = q := by
  intro m
  induction m with
  | nil => intro _ p q hp; exact absurd hp (List.not_mem_nil p)
  | cons a t ih =>
    intro hnd p q hp hq heq
    have ha : a.1 ∉ t.map Prod.fst := by
      simpa using (List.nodup_cons.mp hnd).1
    have ht : (t.map Prod.fst).Nodup := by
      simpa using (List.nodup_cons.mp hnd).2
    rcases List.mem_cons.mp hp with hpa | hpt
    · rcases List.mem_cons.mp hq with hqa | hqt
      · rw [hpa, hqa]
      · exfalso
        apply ha
        have hmem : q.1 ∈ t.map Prod.fst := List.mem_map_of_mem Prod.fst hqt
        rw [hpa] at heq
        rw [heq]
        exact hmem
    · rcases List.mem_cons.mp hq with hqa | hqt
      · exfalso
        apply ha
        have hmem : p.1 ∈ t.map Prod.fst := List.mem_map_of_mem Prod.fst hpt
        rw [hqa] at heq
        rw [← heq]
        exact hmem
      · exact ih ht p q hpt hqt heq

theorem mem_inactive_iff (timeout now : Nat) (m : List (String × UserSession))
    (hnd : (m.map Prod.fst).Nodup) (p : String × UserSession) (hp : p ∈ m) :
    p.1 ∈ (m.filter fun q => timeout < now - q.2.last_activity).map Prod.fst ↔
      timeout < now - p.2.last_activity := by
  constructor
  · intro h
    obtain ⟨q, hqf, hq1⟩ := List.mem_map.mp h
    have hqm : q ∈ m := List.mem_of_mem_filter hqf
    have hqc := List.of_mem_filter hqf
    have : q = p := key_unique m hnd q p hqm hp hq1
    rw [this] at hqc
    simpa using hqc
  · intro h
    have hpf : p ∈ m.filter fun q => timeout < now - q.2.last_activity :=
      List.mem_filter.mpr ⟨hp, by simpa using h⟩
    exact List.mem_map_of_mem Prod.fst hpf

theorem check_inactive_sessions_eq (timeout now : Nat)
    (m : List (String × UserSession)) (hnd : (m.map Prod.fst).Nodup) :
    check_inactive_sessions timeout now m =
      m.map (fun p =>
        if timeout < now - p.2.last_activity
        then (p.1, start_new_session now p.2) else p) := by
  unfold check_inactive_sessions
  have hsub : (m.filter fun q => timeout < now - q.2.last_activity).map Prod.fst
      |>.Sublist (m.map Prod.fst) :=
    (List.filter_sublist m).map Prod.fst
  have hinnd := hnd.sublist hsub
  rw [end_session_foldl now _ hinnd m]
  apply List.map_congr_left
  intro p hp
  by_cases hc : timeout < now - p.2.last_activity
  · rw [if_pos ((mem_inactive_iff timeout now m hnd p hp).mpr hc), if_pos hc]
  · rw [if_neg (fun h => hc ((mem_inactive_iff timeout now m hnd p hp).mp h)),
      if_neg hc]

theorem check_single (timeout now : Nat) (u : String) (s : UserSession) :
    check_inactive_sessions timeout now [(u, s)] =
      [(u, if timeout < now - s.last_activity
           then start_new_session now s else s)] := by
  rw [check_inactive_sessions_eq timeout now [(u, s)] (by simp)]
  by_cases hc : timeout < now - s.last_activity <;> simp [hc]

/-- C5: the poller triggers a rollover exactly for the users whose
`now - last_activity` strictly exceeds `timeout_seconds` (first conjunct,
for any session map with distinct user ids); in the spec's scenario
(`cleanup_interval` = 10s, `timeout_seconds` = 30s, one message at t = 0,
nothing afterwards) the polls at t = 10, 20, 30 change nothing, the poll at
t = 40 performs the single rollover — leaving one archived session holding
the one interaction and an empty current conversation — and every later
poll leaves the archive count at one and the conversation empty: no further
archived session is ever added without new activity. -/
theorem idle_timeout_poller_spec :
    (∀ (timeout now : Nat) (m : List (String × UserSession)),
        (m.map Prod.fst).Nodup →
        check_inactive_sessions timeout now m =
          m.map (fun p =>
            if timeout < now - p.2.last_activity
            then (p.1, start_new_session now p.2) else p)) ∧
    (∀ n, n ≤ 3 → pollRun 30 10 n scenarioM0 = scenarioM0) ∧
    (pollRun 30 10 4 scenarioM0 =
      [("u", { last_activity := 40, session_start_time := 40,
               current_conversation := [],
               all_sessions :=
                 [{ session_id := 1, start_time := 0, end_time := 40,
                    conversation :=
                      [{ timestamp := 0, question := "hello", answer := "hi" }],
                    message_count := 1 }] })]) ∧
    (∀ n, 4 ≤ n → ∃ s : UserSession,
        pollRun 30 10 n scenarioM0 = [("u", s)] ∧
        s.all_sessions.length = 1 ∧ s.current_conversation = []) := by
  refine ⟨check_inactive_sessions_eq, ?_, ?_, ?_⟩
  · intro n hn
    interval_cases n <;> decide
  · decide
  · intro n hn
    induction n, hn using Nat.le_induction with
    | base =>
      exact ⟨{ last_activity := 40, session_start_time := 40,
               current_conversation := [],
               all_sessions :=
                 [{ session_id := 1, start_time := 0, end_time := 40,
                    conversation :=
                      [{ timestamp := 0, question := "hello", answer := "hi" }],
                    message_count := 1 }] }, by decide, by decide, by decide⟩
    | succ n hn ih =>
      obtain ⟨s, hs, hlen, hconv⟩ := ih
      have hstep : pollRun 30 10 (n + 1) scenarioM0 =
          check_inactive_sessions 30 ((n + 1) * 10) (pollRun 30 10 n scenarioM0) := rfl
      rw [hstep, hs, check_single]
      by_cases hc : 30 < (n + 1) * 10 - s.last_activity
      · refine ⟨start_new_session ((n + 1) * 10) s, by rw [if_pos hc], ?_, rfl⟩
        rw [start_new_session_all_of_empty s ((n + 1) * 10) hconv]
        exact hlen
      · exact ⟨s, by rw [if_neg hc], hlen, hconv⟩

/-- C5 witness: the poll-trigger rule applied at t = 40 to the scenario's
map, and the scenario state after nine polls (t = 90). -/
theorem idle_timeout_poller_spec_witness :
    check_inactive_sessions 30 40 scenarioM0 =
      [("u", start_new_session 40 (add_interaction 0 "hello" "hi" (mkUserSession 0)))] ∧
    (pollRun 30 10 9 scenarioM0).map
      (fun p => (p.2.all_sessions.length, p.2.current_conversation.length)) = [(1, 0)] := by
  constructor
  · have h := idle_timeout_poller_spec.1 30 40 scenarioM0 (by decide)
    rw [h]
    decide
  · obtain ⟨s, hs, hlen, hconv⟩ := idle_timeout_poller_spec.2.2.2 9 (by decide)
    rw [hs]
    simp [hlen, hconv]

theorem insertDesc_perm (key : α → Int) (x : α) : ∀ l : List α,
    List.Perm (insertDesc key x l) (x :: l)
  | [] => List.Perm.refl _
  | y :: ys => by
    unfold insertDesc
    by_cases h : key y < key x
    · rw [if_pos h]
    · rw [if_neg h]
      exact ((insertDesc_perm key x ys).cons y).trans (List.Perm.swap x y ys)

theorem sortDesc_foldl_perm (key : α → Int) : ∀ (l acc : List α),
    List.Perm (l.foldl (fun a x => insertDesc key x a) acc) (acc ++ l) := by
  intro l
  induction l with
  | nil => intro acc; simp
  | cons x xs ih =>
    intro acc
    have h1 : (x :: xs).foldl (fun a x => insertDesc key x a) acc =
        xs.foldl (fun a x => insertDesc key x a) (insertDesc key x acc) := rfl
    rw [h1]
    exact (ih _).trans
      (((insertDesc_perm key x acc).append_right xs).trans List.perm_middle.symm)

theorem sortDesc_perm (key : α → Int) (l : List α) :
    List.Perm (sortDesc key l) l := by
  simpa using sortDesc_foldl_perm key l []

theorem insertDesc_sorted (key : α → Int) (x : α) : ∀ l : List α,
    SortedDesc key l → SortedDesc key (insertDesc key x l)
  | [], _ => List.pairwise_singleton _ x
  | y :: ys, h => by
    unfold insertDesc
    by_cases hc : key y < key x
    · rw [if_pos hc]
      refine List.Pairwise.cons ?_ h
      intro z hz
      rcases List.mem_cons.mp hz with rfl | hzys
      · exact le_of_lt hc
      · exact le_trans (List.rel_of_pairwise_cons h hzys) (le_of_lt hc)
    · rw [if_neg hc]
      obtain ⟨hy, hys⟩ := List.pairwise_cons.mp h
      refine List.Pairwise.cons ?_ (insertDesc_sorted key x ys hys)
      intro z hz
      rcases List.mem_cons.mp ((insertDesc_perm key x ys).mem_iff.mp hz) with rfl | hzys
      · exact le_of_not_lt hc
      · exact hy z hzys

theorem sortDesc_foldl_sorted (key : α → Int) : ∀ (l acc : List α),
    SortedDesc key acc →
    SortedDesc key (l.foldl (fun a x => insertDesc key x a) acc) := by
  intro l
  induction l with
  | nil => intro acc h; exact h
  | cons x xs ih =>
    intro acc h
    exact ih (insertDesc key x acc) (insertDesc_sorted key x acc h)

theorem sortDesc_sorted (key : α → Int) (l : List α) :
    SortedDesc key (sortDesc key l) :=
  sortDesc_foldl_sorted key l [] List.Pairwise.nil

theorem sorted_filter_nil (key : α → Int) (v : Int) (y : α) (ys : List α)
    (h : SortedDesc key (y :: ys)) (hv : key y < v) :
    (y :: ys).filter (fun z => key z == v) = [] := by
  rw [List.filter_eq_nil_iff]
  intro a ha
  rcases List.mem_cons.mp ha with rfl | hays
  · simpa using ne_of_lt hv
  · have hle : key a ≤ key y := List.rel_of_pairwise_cons h hays
    simpa using ne_of_lt (lt_of_le_of_lt hle hv)

theorem insertDesc_filter (key : α → Int) (v : Int) (x : α) : ∀ l : List α,
    SortedDesc key l →
    (insertDesc key x l).filter (fun z => key z == v) =
      l.filter (fun z => key z == v) ++ (if key x == v then [x] else [])
  | [], _ => by
    by_cases hxv : key x == v <;> simp [insertDesc, List.filter_cons, hxv]
  | y :: ys, h => by
    unfold insertDesc
    by_cases hc : key y < key x
    · rw [if_pos hc]
      by_cases hxv : (key x == v) = true
      · have hxv' : key x = v := by simpa using hxv
        have hnil : (y :: ys).filter (fun z => key z == v) = [] :=
          sorted_filter_nil key v y ys h (hxv' ▸ hc)
        simp [List.filter_cons, hxv, hnil]
      · have hxv' : (key x == v) = false := by simpa using hxv
        simp [List.filter_cons, hxv']
    · rw [if_neg hc]
      obtain ⟨hy, hys⟩ := List.pairwise_cons.mp h
      by_cases hyv : (key y == v) = true <;>
        simp [List.filter_cons, hyv, insertDesc_filter key v x ys hys]

theorem sortDesc_foldl_filter (key : α → Int) (v : Int) : ∀ (l acc : List α),
    SortedDesc key acc →
    (l.foldl (fun a x => insertDesc key x a) acc).filter (fun z => key z == v) =
      acc.filter (fun z => key z == v) ++ l.filter (fun z => key z == v) := by
  intro l
  induction l with
  | nil => intro acc _; simp
  | cons x xs ih =>
    intro acc h
    have h1 : (x :: xs).foldl (fun a x => insertDesc key x a) acc =
        xs.foldl (fun a x => insertDesc key x a) (insertDesc key x acc) := rfl
    rw [h1, ih (insertDesc key x acc) (insertDesc_sorted key x acc h),
      insertDesc_filter key v x acc h, List.filter_cons]
    by_cases hxv : (key x == v) = true <;> simp [hxv]

theorem sortDesc_filter_stable (key : α → Int) (v : Int) (l : List α) :
    (sortDesc key l).filter (fun z => key z == v) =
      l.filter (fun z => key z == v) := by
  simpa using sortDesc_foldl_filter key v l [] List.Pairwise.nil

theorem sorted_higher_precedes (key : α → Int) (r : List α)
    (h : SortedDesc key r) (i j : Nat) (hi : i < r.length) (hj : j < r.length)
    (hlt : key (r.get ⟨j, hj⟩) < key (r.get ⟨i, hi⟩)) : i < j := by
  by_contra hne
  rcases Nat.lt_or_ge j i with hji | hij
  · have := List.pairwise_iff_get.mp h ⟨j, hj⟩ ⟨i, hi⟩ hji
    exact absurd hlt (not_lt_of_le this)
  · have : i = j := Nat.le_antisymm hij (Nat.le_of_not_lt hne)
    subst this
    exact lt_irrefl _ hlt

/-- C4: when a relevance scorer is configured, every (query, chunk-text)
pair is scored and the candidates are reordered by a stable descending
sort on score: the reranked list is a permutation of the scored
candidates, it is sorted in descending score order, equal scores keep
their original retrieval order (the filter at each score value is
unchanged), a strictly higher-scored chunk always precedes a lower-scored
one regardless of initial rank, and the returned bundle is built from the
first `top_n` of that reranked list. When no scorer is configured, the
first `top_n` of the initial similarity ranking are kept. -/
theorem rerank_spec (query : String) (top_n : Nat) (f : String → String → Int)
    (docs : List PdfDoc) (hne : docs ≠ []) :
    List.Perm (rerankList query f docs)
      (docs.zip (docs.map fun d => f query d.page_content)) ∧
    SortedDesc (fun x => x.2) (rerankList query f docs) ∧
    (∀ v : Int, (rerankList query f docs).filter (fun x => x.2 == v) =
      (docs.zip (docs.map fun d => f query d.page_content)).filter
        (fun x => x.2 == v)) ∧
    (∀ i j (hi : i < (rerankList query f docs).length)
        (hj : j < (rerankList query f docs).length),
        ((rerankList query f docs).get ⟨j, hj⟩).2 <
          ((rerankList query f docs).get ⟨i, hi⟩).2 → i < j) ∧
    get_pdf_rag_answer query top_n (some f) docs =
      { context := String.intercalate "\n\n"
          (((rerankList query f docs).take top_n).map fun x => x.1.page_content),
        sources := ((rerankList query f docs).take top_n).map fun x => x.1.source } ∧
    get_pdf_rag_answer query top_n none docs =
      { context := String.intercalate "\n\n"
          ((docs.take top_n).map fun d => d.page_content),
        sources := (docs.take top_n).map fun d => d.source } := by
  have hni : docs.isEmpty = false := by simpa [List.isEmpty_iff] using hne
  refine ⟨sortDesc_perm _ _, sortDesc_sorted _ _,
    fun v => sortDesc_filter_stable _ v _, ?_, ?_, ?_⟩
  · exact fun i j hi hj hlt =>
      sorted_higher_precedes _ _ (sortDesc_sorted _ _) i j hi hj hlt
  · simp [get_pdf_rag_answer, hni]
  · simp [get_pdf_rag_answer, hni]

/-- C4 witness: chunk B scores strictly higher than chunk A, so B precedes
A in the returned bundle even though A had the better initial rank. -/
theorem rerank_spec_witness :
    get_pdf_rag_answer "q" 2
      (some fun _ t => if t == "beta" then 9 else 1)
      [{ page_content := "alpha", source := "a.pdf" },
       { page_content := "beta", source := "b.pdf" }] =
      { context := "beta\n\nalpha", sources := ["b.pdf", "a.pdf"] } := by
  have h := rerank_spec "q" 2 (fun _ t => if t == "beta" then 9 else 1)
    [{ page_content := "alpha", source := "a.pdf" },
     { page_content := "beta", source := "b.pdf" }] (by decide)
  rw [h.2.2.2.2.1]
  decide

/-- C7 counterexample: only the JSON indexer checks for missing sources.
`initialize_pdf_rag_blocking` contains no no-sources check: with an empty
persisted store and an empty source directory (zero loaded chunks) it
reaches external index construction and, with that construction modelled
as total, yields a successfully built empty store — the claimed ingestion
failure for "both indexers" does not hold for the PDF indexer. -/
theorem pdf_empty_build_counterexample :
    initialize_pdf_rag_blocking false [] = .ok (.built []) ∧
    initialize_json_rag [] = .error "No JSON docs found" :=
  ⟨rfl, rfl⟩

/-- C7 (amended): the JSON indexer fails with an ingestion error
(`RuntimeError("No JSON docs found ...")`) exactly when flattening the
usable sources yields no documents — an empty source directory never
yields a successfully built empty JSON index; the PDF indexer performs no
such repository-level check, so its build reaches the external store
construction whatever the chunk list (any failure on zero chunks would
come from the external library, not from this code). -/
theorem ingestion_error_spec (files : List JsonFile)
    (h : load_json_documents files = []) :
    initialize_json_rag files = .error "No JSON docs found" ∧
    (∀ g : List JsonFile, load_json_documents g ≠ [] →
      initialize_json_rag g = .ok (load_json_documents g)) ∧
    (∀ (persistNE : Bool) (chunks : List PdfDoc),
      ∃ st : PdfStore, initialize_pdf_rag_blocking persistNE chunks = .ok st) := by
  refine ⟨?_, ?_, ?_⟩
  · simp [initialize_json_rag, h]
  · intro g hg
    simp [initialize_json_rag, hg]
  · intro persistNE chunks
    cases persistNE
    · exact ⟨.built chunks, rfl⟩
    · exact ⟨.loaded, rfl⟩

/-- C7 witness: a source directory whose only file parses but flattens to
nothing still fails the JSON build. -/
theorem ingestion_error_spec_witness :
    initialize_json_rag [{ name := "empty.json", content := some (.obj []) }] =
      .error "No JSON docs found" :=
  (ingestion_error_spec [{ name := "empty.json", content := some (.obj []) }]
    (by decide)).1
